import Mathlib

/-!
Shallow embedding of the rubix44-recorder session core
(src/api_server.py, src/rubix_recorder.py, src/logging_system.py),
with theorems settling the specification claims about it.
-/

namespace Rubix

/-- Session status enum (api_server.py line 152):
"initialized, recording, completed, error, stopped". -/
inductive Status where
  | initialized
  | recording
  | completed
  | error
  | stopped
deriving DecidableEq, Repr

/-- Result of os.stat on an existing file: the metadata the server reads. -/
structure FStat where
  size : Nat
  mtime : Nat
deriving DecidableEq, Repr

/-- Snapshot of the file system: maps a path to its stat when the file
exists at that instant, none otherwise. -/
def FileSystem := String → Option FStat

/-- A verified artifact entry (api_server.py lines 255-260):
name, path, size, modified time. -/
structure FileEntry where
  name : String
  path : String
  size : Nat
  modified : Nat
deriving DecidableEq, Repr

/-- os.path.basename on a character list: the characters after the last
slash. -/
def basenameChars (l : List Char) : List Char :=
  l.foldl (fun acc c => if c = '/' then [] else acc ++ [c]) []

/-- os.path.basename: the component after the last slash. -/
def basename (p : String) : String :=
  String.mk (basenameChars p.data)

/-- The entry built for an existing file (api_server.py lines 254-260). -/
def mkEntry (p : String) (st : FStat) : FileEntry :=
  { name := basename p, path := p, size := st.size, modified := st.mtime }

/-- Artifact verification loop (api_server.py lines 250-264): for each
candidate path in order, if the file exists append its entry; missing
candidates are skipped.  A total function: it never raises. -/
def verifyFiles (paths : List String) (fs : FileSystem) : List FileEntry :=
  match paths with
  | [] => []
  | p :: rest =>
    match fs p with
    | some st => mkEntry p st :: verifyFiles rest fs
    | none => verifyFiles rest fs

/-- The three expected output paths (api_server.py lines 239-247):
base path {recordingsDirectory}/{outputPrefix}_{timestamp} and the
suffixes _stereo.wav, _ch1.wav, _ch2.wav. -/
def candidatePaths (rd outPfx timestamp : String) : List String :=
  [rd ++ "/" ++ outPfx ++ "_" ++ timestamp ++ "_stereo.wav",
   rd ++ "/" ++ outPfx ++ "_" ++ timestamp ++ "_ch1.wav",
   rd ++ "/" ++ outPfx ++ "_" ++ timestamp ++ "_ch2.wav"]

/-- A wall-clock instant, as a datetime object supports it in the server:
`sec` is the epoch-second count (used for duration subtraction) and `ts`
its "%Y-%m-%d_%H-%M-%S" rendering (used to build file paths). -/
structure Instant where
  sec : Nat
  ts : String
deriving DecidableEq, Repr

/-- The AudioRecorder object (rubix_recorder.py lines 19-34): the fields
the session core interacts with.  `shouldStop` starts false and is set by
stop_recording (lines 57-61). -/
structure Recorder where
  duration : Nat
  sampleRate : Nat
  shouldStop : Bool
deriving DecidableEq, Repr

/-- Creation-time stamp of a session, at the second granularity that
datetime.now().strftime("%Y%m%d_%H%M%S") exposes (api_server.py line 141). -/
structure Stamp where
  year : Nat
  month : Nat
  day : Nat
  hour : Nat
  minute : Nat
  second : Nat
deriving DecidableEq, Repr

/-- One decimal digit as a character. -/
def digitChar (d : Nat) : Char :=
  match d with
  | 0 => '0'
  | 1 => '1'
  | 2 => '2'
  | 3 => '3'
  | 4 => '4'
  | 5 => '5'
  | 6 => '6'
  | 7 => '7'
  | 8 => '8'
  | _ => '9'

/-- Zero-padded fixed-width decimal rendering, most significant digit
first: the strftime field format. -/
def padDigits : Nat → Nat → List Char
  | 0, _ => []
  | w + 1, n => padDigits w (n / 10) ++ [digitChar (n % 10)]

/-- The characters of strftime("%Y%m%d_%H%M%S") applied to a stamp. -/
def sessionIdChars (t : Stamp) : List Char :=
  padDigits 4 t.year ++ padDigits 2 t.month ++ padDigits 2 t.day ++
    '_' :: (padDigits 2 t.hour ++ padDigits 2 t.minute ++ padDigits 2 t.second)

/-- Session id (api_server.py line 141):
datetime.now().strftime("%Y%m%d_%H%M%S"). -/
def sessionId (t : Stamp) : String :=
  String.mk (sessionIdChars t)

/-- Ranges a datetime.now() stamp always satisfies. -/
def Stamp.valid (t : Stamp) : Prop :=
  1000 ≤ t.year ∧ t.year < 10000 ∧ 1 ≤ t.month ∧ t.month ≤ 12 ∧
    1 ≤ t.day ∧ t.day ≤ 31 ∧ t.hour < 24 ∧ t.minute < 60 ∧ t.second < 60

/-- The date part packed as a number, in chronological order. -/
def Stamp.dateKey (t : Stamp) : Nat :=
  (t.year * 100 + t.month) * 100 + t.day

/-- The time-of-day part packed as a number, in chronological order. -/
def Stamp.timeKey (t : Stamp) : Nat :=
  (t.hour * 100 + t.minute) * 100 + t.second

/-- Full chronological key: for valid stamps, `key t1 < key t2` holds
exactly when `t1` is an earlier instant (at second granularity). -/
def Stamp.key (t : Stamp) : Nat :=
  t.dateKey * 1000000 + t.timeKey

/-- A RecordingSession object (api_server.py lines 139-157). -/
structure Session where
  id : String
  humanId : String
  playbackFilePath : String
  playbackFile : String
  startTime : Option Instant
  endTime : Option Instant
  duration : Nat
  sampleRate : Nat
  outPfx : String
  status : Status
  files : List FileEntry
  error : Option String
  recorder : Option Recorder
  actualDuration : Nat
  channels : Nat
deriving DecidableEq, Repr

/-- RecordingSession.__init__ (api_server.py lines 139-157): id derived
from the creation stamp, human id random, status "initialized", empty
files, no recorder, no timestamps. -/
def mkSession (now : Stamp) (humanId playbackFile : String)
    (duration sampleRate : Nat) (outPfx : String) : Session :=
  { id := sessionId now
    humanId := humanId
    playbackFilePath := playbackFile
    playbackFile := basename playbackFile
    startTime := none
    endTime := none
    duration := duration
    sampleRate := sampleRate
    outPfx := outPfx
    status := Status.initialized
    files := []
    error := none
    recorder := none
    actualDuration := 0
    channels := 2 }

/-- Where the worker thread is in its own code, used to order its steps:
created (thread not yet scheduled), begun (lines 196-199 done),
hasRecorder (lines 205-213 done), finished (one of the terminal blocks at
lines 224-279 done), cleared (finally block at lines 280-283 done). -/
inductive Phase where
  | created
  | begun
  | hasRecorder
  | finished
  | cleared
deriving DecidableEq, Repr

/-- The per-session shared state: the session object, whether
current_recording_session points at it, and the worker's phase. -/
structure WState where
  sess : Session
  inSlot : Bool
  phase : Phase
deriving DecidableEq, Repr

/-- Fresh state before the worker thread runs. -/
def initW (now : Stamp) (humanId playbackFile : String)
    (duration sampleRate : Nat) (outPfx : String) : WState :=
  { sess := mkSession now humanId playbackFile duration sampleRate outPfx
    inSlot := false
    phase := Phase.created }

/-- Worker thread start block (api_server.py lines 196-199), under the
lock: install the session in the slot, set status "recording", record the
start time. -/
def workerBegin (t : Instant) (w : WState) : WState :=
  { w with
    inSlot := true
    sess := { w.sess with status := Status.recording, startTime := some t } }

/-- Recorder construction and reference storage (api_server.py lines
205-213): an AudioRecorder with the session's duration and sample rate,
should_stop initially false (rubix_recorder.py line 34). -/
def workerSetRecorder (w : WState) : WState :=
  { w with
    sess := { w.sess with
      recorder := some { duration := w.sess.duration
                         sampleRate := w.sess.sampleRate
                         shouldStop := false } } }

/-- Timestamp string taken from start_time (api_server.py line 239);
the worker has always set start_time before this runs. -/
def tsOfStart : Option Instant → String
  | some i => i.ts
  | none => ""

/-- Worker finalization block (api_server.py lines 224-272), under the
lock, after record_with_playback returned `success`: if success or the
session was stopped, keep "stopped" or set "completed", set end_time,
compute actual duration, and replace files with the verified entries for
the three candidate paths.  Otherwise set status "error" with message
"Recording failed" (and, as in the source, no end_time). -/
def finishSession (success : Bool) (t : Instant) (fs : FileSystem)
    (rd : String) (s : Session) : Session :=
  if success = true ∨ s.status = Status.stopped then
    { s with
      status := if s.status ≠ Status.stopped then Status.completed else s.status
      endTime := some t
      actualDuration :=
        match s.startTime with
        | some s0 => t.sec - s0.sec
        | none => s.duration
      files := verifyFiles (candidatePaths rd s.outPfx (tsOfStart s.startTime)) fs }
  else
    { s with status := Status.error, error := some "Recording failed" }

/-- The finalization block lifted to the shared state. -/
def workerFinish (success : Bool) (t : Instant) (fs : FileSystem)
    (rd : String) (w : WState) : WState :=
  { w with sess := finishSession success t fs rd w.sess }

/-- Worker exception handler (api_server.py lines 274-279), under the
lock: status "error", error message, end_time set. -/
def workerRaise (msg : String) (t : Instant) (w : WState) : WState :=
  { w with
    sess := { w.sess with
      status := Status.error, error := some msg, endTime := some t } }

/-- Worker finally block (api_server.py lines 280-283), under the lock:
clear the slot. -/
def workerClear (w : WState) : WState :=
  { w with inSlot := false }

/-- The session mutation performed by a served stop request
(api_server.py lines 499-505): deliver the stop flag to the recorder if
one is stored, mark the session stopped, set end_time. -/
def stopSession (t : Instant) (s : Session) : Session :=
  { s with
    recorder := s.recorder.map (fun r => { r with shouldStop := true })
    status := Status.stopped
    endTime := some t }

/-- A file entry in the stop response's fallback collection
(api_server.py lines 526-530): no modified field there. -/
structure StopFileEntry where
  name : String
  path : String
  size : Nat
deriving DecidableEq, Repr

/-- The stop handler's fallback collection loop (api_server.py lines
522-530) over the three suffixes. -/
def stopCollectGo (basePath : String) (fs : FileSystem) :
    List String → List StopFileEntry
  | [] => []
  | suf :: rest =>
    match fs (basePath ++ suf) with
    | some st =>
      { name := basename (basePath ++ suf), path := basePath ++ suf
        size := st.size } :: stopCollectGo basePath fs rest
    | none => stopCollectGo basePath fs rest

/-- api_server.py lines 519-530 applied to a base path. -/
def stopCollectFiles (basePath : String) (fs : FileSystem) : List StopFileEntry :=
  stopCollectGo basePath fs ["_stereo.wav", "_ch1.wav", "_ch2.wav"]

/-- The files part of the stop response (api_server.py lines 514-530):
the session's verified files when nonempty, otherwise whatever candidate
files already exist on disk. -/
inductive StopFiles where
  | fromSession (l : List FileEntry)
  | collected (l : List StopFileEntry)
deriving DecidableEq, Repr

/-- api_server.py lines 514-530. -/
def stopFilesResponse (s : Session) (rd : String) (fs : FileSystem) : StopFiles :=
  if s.files ≠ [] then StopFiles.fromSession s.files
  else
    match s.startTime with
    | some s0 =>
      StopFiles.collected
        (stopCollectFiles (rd ++ "/" ++ s.outPfx ++ "_" ++ s0.ts) fs)
    | none => StopFiles.collected []

/-- Outcome of the stop endpoint (api_server.py lines 492-538). -/
inductive StopResult where
  | noActive
  | ok (files : StopFiles) (durationSeconds : Nat)
deriving DecidableEq, Repr

/-- The stop endpoint (api_server.py lines 492-538), under the lock: if
the slot does not hold this session with status "recording", fail with
"No active recording session" and change nothing; otherwise mutate the
session as in `stopSession` and answer success with the files and the
actual duration. -/
def stopRequest (t : Instant) (fs : FileSystem) (rd : String) (w : WState) :
    WState × StopResult :=
  if w.inSlot = true ∧ w.sess.status = Status.recording then
    ({ w with sess := stopSession t w.sess },
     StopResult.ok (stopFilesResponse (stopSession t w.sess) rd fs)
       (match (stopSession t w.sess).startTime with
        | some s0 => t.sec - s0.sec
        | none => 0))
  else (w, StopResult.noActive)

/-- One atomic mutation of the shared state, in the order the worker's
own code imposes on its steps; a stop request can interleave at any
point.  All session-field writes happen inside these lock-protected
blocks, exactly as in the source. -/
inductive Step : WState → WState → Prop where
  | beginStep (t : Instant) (w : WState) : w.phase = Phase.created →
      Step w { workerBegin t w with phase := Phase.begun }
  | setRecorderStep (w : WState) : w.phase = Phase.begun →
      Step w { workerSetRecorder w with phase := Phase.hasRecorder }
  | stopStep (t : Instant) (fs : FileSystem) (rd : String) (w : WState) :
      Step w (stopRequest t fs rd w).1
  | finishStep (success : Bool) (t : Instant) (fs : FileSystem)
      (rd : String) (w : WState) : w.phase = Phase.hasRecorder →
      Step w { workerFinish success t fs rd w with phase := Phase.finished }
  | raiseStep (msg : String) (t : Instant) (w : WState) :
      w.phase = Phase.begun ∨ w.phase = Phase.hasRecorder →
      Step w { workerRaise msg t w with phase := Phase.finished }
  | clearStep (w : WState) : w.phase = Phase.finished →
      Step w { workerClear w with phase := Phase.cleared }

/-- States reachable from a fresh session by any sequence of operations. -/
def Reachable (w0 w : WState) : Prop :=
  Relation.ReflTransGen Step w0 w

/-! ## Admission (api_server.py lines 424-490) -/

/-- The guard the start endpoint evaluates under the lock (lines 432-433):
`current_recording_session and current_recording_session.status == "recording"`. -/
def admissionBusy (slot : Option Session) : Bool :=
  match slot with
  | some s => decide (s.status = Status.recording)
  | none => false

/-- Outcome of one start request. -/
inductive StartResult where
  | conflict
  | accepted (s : Session)
deriving DecidableEq, Repr

/-- The start endpoint's admission step (lines 431-435 and 464-490): when
the slot holds a session with status "recording" it answers "Recording
already in progress" and returns before constructing any session; the
slot itself is only ever written by the worker thread, so admission
leaves it untouched in both branches. -/
def startRecordingOp (slot : Option Session) (newSession : Session) :
    StartResult × Option Session :=
  if admissionBusy slot then (StartResult.conflict, slot)
  else (StartResult.accepted newSession, slot)

/-- A sequence of start requests served one after the other under the
lock, each seeing the slot the previous one left. -/
def runStarts (slot : Option Session) :
    List Session → List StartResult × Option Session
  | [] => ([], slot)
  | ns :: rest =>
    let r := startRecordingOp slot ns
    let rs := runStarts r.2 rest
    (r.1 :: rs.1, rs.2)

/-! ## Transfer (api_server.py lines 748-888) -/

/-- What the outside world does for one file of a transfer batch: whether
the per-file body raises, the exit code and stderr of the scp/rsync
subprocess, and the status and body of the http response. -/
structure FileWorld where
  raises : Option String
  exitCode : Nat
  stderrText : String
  httpStatus : Nat
  httpBody : String

/-- A failed-transfer record (api_server.py: failed_files entries). -/
structure FailEntry where
  file : String
  reason : String
deriving DecidableEq, Repr

/-- The per-file body of the transfer loop (api_server.py lines 797-858):
scp/rsync succeed on exit code 0 and fail with the captured stderr
otherwise; sftp always fails as not implemented; http succeeds exactly on
response status 200 and fails with "HTTP {status}: {body}" otherwise; an
unknown protocol tag fails; any exception is recorded as a failure.
`Sum.inl` is an entry for transferred_files, `Sum.inr` for failed_files. -/
def transferOne (protocol filename : String) (w : FileWorld) :
    Sum String FailEntry :=
  match w.raises with
  | some msg => Sum.inr { file := filename, reason := msg }
  | none =>
    if protocol = "scp" then
      if w.exitCode = 0 then Sum.inl filename
      else Sum.inr { file := filename, reason := w.stderrText }
    else if protocol = "sftp" then
      Sum.inr { file := filename, reason := "SFTP not yet implemented" }
    else if protocol = "rsync" then
      if w.exitCode = 0 then Sum.inl filename
      else Sum.inr { file := filename, reason := w.stderrText }
    else if protocol = "http" then
      if w.httpStatus = 200 then Sum.inl filename
      else Sum.inr { file := filename
                     reason := "HTTP " ++ toString w.httpStatus ++ ": " ++ w.httpBody }
    else Sum.inr { file := filename, reason := "Unsupported protocol: " ++ protocol }

/-- The transfer loop (api_server.py lines 796-858): files processed
independently and sequentially; each lands in transferred_files or
failed_files and the loop always continues to the next file. -/
def transferLoop (protocol : String) (world : String → FileWorld) :
    List String → List String × List FailEntry
  | [] => ([], [])
  | path :: rest =>
    let fn := basename path
    let r := transferLoop protocol world rest
    match transferOne protocol fn (world path) with
    | Sum.inl n => (n :: r.1, r.2)
    | Sum.inr e => (r.1, e :: r.2)

/-! ## Crash tracker (src/logging_system.py lines 88-127) -/

/-- One crash record (logging_system.py lines 103-107). -/
structure CrashRecord where
  detectedAt : String
  lastStart : Option String
  type : String
deriving DecidableEq, Repr

/-- The persisted crash-tracker document, with the .get defaults the code
applies for missing keys. -/
structure CrashData where
  running : Bool
  lastStart : Option String
  lastShutdown : Option String
  crashes : List CrashRecord
  cleanShutdowns : Nat
deriving DecidableEq, Repr

/-- The document used when the crash file is absent or unparsable
(logging_system.py lines 94-97): crashes empty, counters zero, no flags. -/
def CrashData.empty : CrashData :=
  { running := false, lastStart := none, lastShutdown := none
    crashes := [], cleanShutdowns := 0 }

/-- _load_crash_tracker (logging_system.py lines 88-112) after the file
has been read into `loaded`: if the persisted running flag was true, a
crash record with type "unexpected_shutdown", the detection time and the
prior last_start is appended; then running is set true and last_start to
the new start time, and the document is written back.  The returned
document is exactly what _save_crash_tracker persists; the Bool reports
whether a crash was detected. -/
def loadCrashTracker (loaded : CrashData) (now startIso : String) :
    CrashData × Bool :=
  let crashes :=
    if loaded.running then
      loaded.crashes ++
        [{ detectedAt := now
           lastStart := loaded.lastStart
           type := "unexpected_shutdown" }]
    else loaded.crashes
  ({ loaded with
       running := true
       lastStart := some startIso
       crashes := crashes },
   loaded.running)

/-- mark_clean_shutdown (logging_system.py lines 122-127). -/
def markCleanShutdown (d : CrashData) (now : String) : CrashData :=
  { d with
      running := false
      cleanShutdowns := d.cleanShutdowns + 1
      lastShutdown := some now }

/-! ## Playback looping math (src/rubix_recorder.py lines 127-152) -/

/-- Lines 128-131: a mono playback file is duplicated to two channels. -/
def playChannels (c : Nat) : Nat :=
  if c = 1 then 2 else c

/-- Line 142: loops_needed = ceil(duration * playback_sr / n) where n is
the playback buffer's frame count. -/
def loopsNeeded (duration playbackSr n : Nat) : Nat :=
  (duration * playbackSr + n - 1) / n

/-- Lines 142-152: the number of frames handed to sd.play.  When more
than one loop is needed the buffer is tiled loops_needed times and sliced
to int(duration * playback_sr) frames; otherwise the whole playback
buffer is played as is. -/
def playedFrames (duration playbackSr n : Nat) : Nat :=
  if 1 < loopsNeeded duration playbackSr n then
    min (loopsNeeded duration playbackSr n * n) (duration * playbackSr)
  else n

/-! ## The worker's poll loop (src/rubix_recorder.py lines 180-191) -/

/-- One tick is one 100 ms sleep.  `flag t` is the value of should_stop
the loop reads at elapsed tick `t`; `active t` is whether the device
still reports an active capture then; `durTicks` is the requested
duration in ticks.  Returns the elapsed tick at which the loop exits. -/
def pollLoopGo (flag active : Nat → Bool) (durTicks : Nat) :
    Nat → Nat → Nat
  | 0, t => t
  | fuel + 1, t =>
    if flag t then t
    else if durTicks ≤ t then t
    else if active (t + 1) = false then t + 1
    else pollLoopGo flag active durTicks fuel (t + 1)

/-- The poll loop of rubix_recorder.py lines 180-184: sleep in 100 ms
increments until the stop flag is observed, the duration elapses, or the
device reports natural completion. -/
def pollLoop (flag active : Nat → Bool) (durTicks : Nat) : Nat :=
  pollLoopGo flag active durTicks durTicks 0

/-! ## Status transition bookkeeping -/

/-- The status transitions the code can actually perform in one
lock-protected block: staying put, the spec's edges
initialized → recording → (completed, error or stopped), and the
additional stopped → error transition of the worker's exception
handler. -/
def statusEdgeOK (a b : Status) : Prop :=
  a = b ∨
  (a = Status.initialized ∧ b = Status.recording) ∨
  (a = Status.recording ∧
    (b = Status.completed ∨ b = Status.error ∨ b = Status.stopped)) ∨
  (a = Status.stopped ∧ b = Status.error)

/-- The inductive invariant tying the worker's phase to the session's
status, end time and error fields. -/
def Inv (w : WState) : Prop :=
  match w.phase with
  | Phase.created =>
      w.sess.status = Status.initialized ∧ w.inSlot = false ∧
        w.sess.endTime = none ∧ w.sess.recorder = none
  | Phase.begun =>
      w.sess.status = Status.recording ∧ w.sess.endTime = none ∨
        w.sess.status = Status.stopped ∧ w.sess.endTime ≠ none
  | Phase.hasRecorder =>
      w.sess.status = Status.recording ∧ w.sess.endTime = none ∨
        w.sess.status = Status.stopped ∧ w.sess.endTime ≠ none
  | Phase.finished =>
      (w.sess.status = Status.completed ∨ w.sess.status = Status.stopped) ∧
          w.sess.endTime ≠ none ∨
        w.sess.status = Status.error ∧
          (w.sess.endTime ≠ none ∨ w.sess.error = some "Recording failed")
  | Phase.cleared =>
      (w.sess.status = Status.completed ∨ w.sess.status = Status.stopped) ∧
          w.sess.endTime ≠ none ∨
        w.sess.status = Status.error ∧
          (w.sess.endTime ≠ none ∨ w.sess.error = some "Recording failed")

/-! ## Concrete objects used by witnesses and counterexamples -/

/-- An empty recordings directory. -/
def fsEmpty : FileSystem := fun _ => none

/-- Concrete instants of one run. -/
def iA : Instant := { sec := 1000, ts := "2025-03-14_09-26-53" }

/-- Two seconds after `iA`. -/
def iB : Instant := { sec := 1002, ts := "2025-03-14_09-26-55" }

/-- Five seconds after `iA`. -/
def iC : Instant := { sec := 1005, ts := "2025-03-14_09-26-58" }

/-- A concrete creation stamp. -/
def stamp0 : Stamp :=
  { year := 2025, month := 3, day := 14, hour := 9, minute := 26, second := 53 }

/-- A stamp one second after `stamp0`. -/
def stamp1 : Stamp :=
  { year := 2025, month := 3, day := 14, hour := 9, minute := 26, second := 54 }

/-- Fresh state of a concrete session. -/
def c2w0 : WState := initW stamp0 "swift-panda-2347" "p.wav" 60 44100 "api_recording"

/-- After the worker's start block. -/
def c2w1 : WState := { workerBegin iA c2w0 with phase := Phase.begun }

/-- After the recorder reference is stored. -/
def c2w2 : WState := { workerSetRecorder c2w1 with phase := Phase.hasRecorder }

/-- After a stop request is served: session stopped. -/
def c2w3 : WState := (stopRequest iB fsEmpty "recordings" c2w2).1

/-- After record_with_playback raises (the device-not-found RuntimeError
of rubix_recorder.py lines 88-95) and the worker's exception handler
runs: the stopped session is overwritten with status error. -/
def c2w4 : WState :=
  { workerRaise "Could not find Rubix44 input device!" iC c2w3 with
    phase := Phase.finished }

/-- After record_with_playback returns False (api_server.py line 222 with
success = False) on a session never stopped: the recording-failed branch. -/
def c3w3 : WState :=
  { workerFinish false iC fsEmpty "recordings" c2w2 with phase := Phase.finished }

/-- After record_with_playback returns True on a session never stopped:
the normal completion branch. -/
def c3wOk : WState :=
  { workerFinish true iC fsEmpty "recordings" c2w2 with phase := Phase.finished }

/-- A file system where only one of two candidate paths exists. -/
def c4Fs : FileSystem :=
  fun p => if p = "recordings/a.wav" then some { size := 3, mtime := 7 } else none

/-- A concrete session occupying the slot with status recording. -/
def sessRec : Session :=
  { mkSession stamp0 "calm-otter-7777" "p.wav" 60 44100 "api_recording" with
    status := Status.recording }

/-- A per-file world in which the scp subprocess succeeds for r/a.wav and
exits 1 with stderr "ssh: timeout" for every other path. -/
def c5World : String → FileWorld :=
  fun p =>
    if p = "r/a.wav" then
      { raises := none, exitCode := 0, stderrText := "", httpStatus := 200
        httpBody := "" }
    else
      { raises := none, exitCode := 1, stderrText := "ssh: timeout"
        httpStatus := 200, httpBody := "" }

/-- A per-file world whose http upload answers 201 Created. -/
def c6World : FileWorld :=
  { raises := none, exitCode := 0, stderrText := "", httpStatus := 201
    httpBody := "created" }

/-- A per-file world whose http upload answers 200. -/
def c6WorldOk : FileWorld :=
  { raises := none, exitCode := 0, stderrText := "", httpStatus := 200
    httpBody := "done" }

/-! ## Theorems -/

/-- C7: loading the crash tracker at startup appends exactly one crash
record — with type unexpected_shutdown and the prior last_start — if and
only if the persisted running flag was true at load time, and leaves the
crashes list unchanged otherwise; afterwards running is true and
last_start is the new start time; the returned document is the one
persisted, and the reported was-crashed flag is true exactly when a crash
record was appended. -/
theorem crash_tracker_startup (loaded : CrashData) (now startIso : String) :
    (loadCrashTracker loaded now startIso).1.crashes =
      loaded.crashes ++
        (if loaded.running then
          [{ detectedAt := now
             lastStart := loaded.lastStart
             type := "unexpected_shutdown" }]
         else []) ∧
    (loadCrashTracker loaded now startIso).1.crashes.length =
      loaded.crashes.length + (if loaded.running then 1 else 0) ∧
    (loadCrashTracker loaded now startIso).2 = loaded.running ∧
    (loadCrashTracker loaded now startIso).1.running = true ∧
    (loadCrashTracker loaded now startIso).1.lastStart = some startIso ∧
    ((loadCrashTracker loaded now startIso).2 = true ↔
      (loadCrashTracker loaded now startIso).1.crashes.length =
        loaded.crashes.length + 1) := by
  cases hr : loaded.running <;> simp [loadCrashTracker, hr]

/-- C7 witness: the startup statement applied to a concrete persisted
document whose running flag is true. -/
theorem crash_tracker_startup_witness :
    (loadCrashTracker
        { running := true, lastStart := some "prior", lastShutdown := none
          crashes := [], cleanShutdowns := 2 } "now" "start").1.running = true ∧
    (loadCrashTracker
        { running := true, lastStart := some "prior", lastShutdown := none
          crashes := [], cleanShutdowns := 2 } "now" "start").2 = true :=
  ⟨(crash_tracker_startup
      { running := true, lastStart := some "prior", lastShutdown := none
        crashes := [], cleanShutdowns := 2 } "now" "start").2.2.2.1,
   ((crash_tracker_startup
      { running := true, lastStart := some "prior", lastShutdown := none
        crashes := [], cleanShutdowns := 2 } "now" "start").2.2.1).trans rfl⟩

/-- C8 counterexample: with a requested duration of 1 second and a
playback file of sample rate 1 holding 2 frames, the buffer handed to
sd.play has 2 frames, not the duration * playbackSampleRate = 1 frames
the claim requires: a playback file at least as long as the requested
duration is played whole, untruncated. -/
theorem playback_truncation_counterexample :
    playedFrames 1 1 2 = 2 ∧ (1 * 1 : Nat) = 1 ∧ playedFrames 1 1 2 ≠ 1 * 1 := by
  decide

/-- C8 amended: for a nonempty playback buffer, the buffer handed to
sd.play is tiled and truncated to exactly duration * playbackSampleRate
frames when the input is shorter than that, and is the whole untruncated
input buffer otherwise; a mono input is first duplicated to two
channels. -/
theorem playback_frames_spec (d sr n : Nat) (hn : 0 < n) :
    playedFrames d sr n = (if n < d * sr then d * sr else n) ∧
    playChannels 1 = 2 := by
  refine ⟨?_, rfl⟩
  unfold playedFrames loopsNeeded
  have hdm := Nat.div_add_mod (d * sr + n - 1) n
  have hmod : (d * sr + n - 1) % n < n := Nat.mod_lt _ hn
  by_cases h1 : 1 < (d * sr + n - 1) / n
  · have h2 : n * 2 ≤ n * ((d * sr + n - 1) / n) := Nat.mul_le_mul_left n h1
    rw [if_pos h1, Nat.mul_comm]
    generalize hm : n * ((d * sr + n - 1) / n) = m at h2 hdm
    have hna : n < d * sr := by omega
    rw [if_pos hna]
    omega
  · have h2 : n * ((d * sr + n - 1) / n) ≤ n * 1 :=
      Nat.mul_le_mul_left n (by omega)
    rw [if_neg h1]
    generalize hm : n * ((d * sr + n - 1) / n) = m at h2 hdm
    rw [if_neg (by omega)]

/-- C8 witness: the amended statement applied at duration 3, playback
sample rate 5 and a 2-frame buffer. -/
theorem playback_frames_spec_witness :
    playedFrames 3 5 2 = (if 2 < 3 * 5 then 3 * 5 else 2) ∧
    playChannels 1 = 2 :=
  playback_frames_spec 3 5 2 (by decide)

/-- C6 counterexample: an http upload answered with status 201 — a 2xx
status — is recorded as failed with reason "HTTP 201: created", not as
transferred as the claim requires; the code accepts exactly status 200. -/
theorem http_2xx_counterexample :
    (200 ≤ 201 ∧ 201 < 300) ∧
    transferOne "http" "a.wav" c6World =
      Sum.inr { file := "a.wav", reason := "HTTP 201: created" } := by
  constructor
  · decide
  · rfl

/-- C6 amended: under the http strategy, when the per-file body does not
raise, a file is counted as transferred if and only if the HTTP response
status is exactly 200; any other status counts it as failed with the
response status and body recorded as the reason. -/
theorem http_transfer_iff_200 (fn : String) (w : FileWorld)
    (hnr : w.raises = none) :
    (transferOne "http" fn w = Sum.inl fn ↔ w.httpStatus = 200) ∧
    (w.httpStatus ≠ 200 →
      transferOne "http" fn w =
        Sum.inr { file := fn
                  reason := "HTTP " ++ toString w.httpStatus ++ ": " ++ w.httpBody }) := by
  unfold transferOne
  rw [hnr]
  by_cases h200 : w.httpStatus = 200 <;> simp [h200]

/-- C6 witness: the amended statement applied to the concrete worlds
answering 201 and 200. -/
theorem http_transfer_iff_200_witness :
    c6World.raises = none ∧ c6WorldOk.raises = none ∧
    ((transferOne "http" "a.wav" c6World = Sum.inl "a.wav" ↔
        c6World.httpStatus = 200) ∧
      (c6World.httpStatus ≠ 200 →
        transferOne "http" "a.wav" c6World =
          Sum.inr { file := "a.wav"
                    reason := "HTTP " ++ toString c6World.httpStatus ++ ": " ++
                      c6World.httpBody })) ∧
    ((transferOne "http" "b.wav" c6WorldOk = Sum.inl "b.wav" ↔
        c6WorldOk.httpStatus = 200) ∧
      (c6WorldOk.httpStatus ≠ 200 →
        transferOne "http" "b.wav" c6WorldOk =
          Sum.inr { file := "b.wav"
                    reason := "HTTP " ++ toString c6WorldOk.httpStatus ++ ": " ++
                      c6WorldOk.httpBody })) :=
  ⟨rfl, rfl, http_transfer_iff_200 "a.wav" c6World rfl,
    http_transfer_iff_200 "b.wav" c6WorldOk rfl⟩

/-- Whatever the protocol and outside world do, a transferred entry
carries the processed file's name. -/
theorem transferOne_inl_eq {pr fn : String} {w : FileWorld} {x : String}
    (h : transferOne pr fn w = Sum.inl x) : x = fn := by
  unfold transferOne at h
  rcases hr : w.raises with _ | msg <;> rw [hr] at h
  · split_ifs at h <;> simp_all
  · simp_all

/-- Whatever the protocol and outside world do, a failed entry carries
the processed file's name. -/
theorem transferOne_inr_file {pr fn : String} {w : FileWorld} {e : FailEntry}
    (h : transferOne pr fn w = Sum.inr e) : e.file = fn := by
  unfold transferOne at h
  rcases hr : w.raises with _ | msg <;> rw [hr] at h
  · split_ifs at h <;> simp_all <;> rw [← h]
  · simp_all
    rw [← h]

/-- The processed names, transferred then failed, are a permutation of
the batch's basenames. -/
theorem transferLoop_perm (pr : String) (world : String → FileWorld) :
    ∀ paths : List String,
      List.Perm
        ((transferLoop pr world paths).1 ++
          (transferLoop pr world paths).2.map FailEntry.file)
        (paths.map basename) := by
  intro paths
  induction paths with
  | nil => simp [transferLoop]
  | cons p rest ih =>
    rcases h : transferOne pr (basename p) (world p) with n | e
    · have hn : n = basename p := transferOne_inl_eq h
      simp only [transferLoop, h, List.map_cons, List.cons_append, hn]
      exact List.Perm.cons _ ih
    · have hn : e.file = basename p := transferOne_inr_file h
      simp only [transferLoop, h, List.map_cons]
      refine List.Perm.trans List.perm_middle ?_
      rw [hn]
      exact List.Perm.cons _ ih

/-- C5: in every transfer batch each file is processed independently in
sequence — a failure is recorded and the loop continues — and at the end
the transferred and failed lists partition the batch: their lengths sum
to the batch size, every batch name appears among the outcomes, and (for
a batch of distinct basenames, as produced by one directory listing) no
filename is in both lists. -/
theorem transfer_batch_partition (pr : String) (world : String → FileWorld)
    (paths : List String) :
    (transferLoop pr world paths).1.length +
        (transferLoop pr world paths).2.length = paths.length ∧
    List.Perm
      ((transferLoop pr world paths).1 ++
        (transferLoop pr world paths).2.map FailEntry.file)
      (paths.map basename) ∧
    ((paths.map basename).Nodup →
      ∀ x ∈ (transferLoop pr world paths).1,
        ∀ e ∈ (transferLoop pr world paths).2, e.file ≠ x) := by
  have hperm := transferLoop_perm pr world paths
  refine ⟨?_, hperm, ?_⟩
  · have := hperm.length_eq
    simpa using this
  · intro hnd x hx e he hfe
    have hnd2 : ((transferLoop pr world paths).1 ++
        (transferLoop pr world paths).2.map FailEntry.file).Nodup :=
      (List.Perm.nodup_iff hperm).mpr hnd
    rw [List.nodup_append] at hnd2
    exact hnd2.2.2 hx (hfe ▸ List.mem_map_of_mem FailEntry.file he)

/-- C5 witness: the partition statement applied to a concrete two-file
batch in which the first file transfers and the second fails. -/
theorem transfer_batch_partition_witness :
    (transferLoop "scp" c5World ["r/a.wav", "r/b.wav"]).1.length +
        (transferLoop "scp" c5World ["r/a.wav", "r/b.wav"]).2.length = 2 ∧
    ((["r/a.wav", "r/b.wav"].map basename).Nodup ∧
      ∀ x ∈ (transferLoop "scp" c5World ["r/a.wav", "r/b.wav"]).1,
        ∀ e ∈ (transferLoop "scp" c5World ["r/a.wav", "r/b.wav"]).2,
          e.file ≠ x) := by
  have h := transfer_batch_partition "scp" c5World ["r/a.wav", "r/b.wav"]
  have hnd : ((["r/a.wav", "r/b.wav"] : List String).map basename).Nodup := by
    decide
  exact ⟨h.1, hnd, h.2.2 hnd⟩

/-- C4: artifact verification returns, in candidate order, exactly one
entry per candidate path that exists on disk at verification time — with
the name, path, size and modification time read then — and no entry for a
missing candidate (silently dropped; the function is total, so it never
raises); and the worker's finalization replaces the session's files list
with exactly these verified entries. -/
theorem artifact_verification (paths : List String) (fs : FileSystem) :
    (verifyFiles paths fs).map FileEntry.path =
      paths.filter (fun p => (fs p).isSome) ∧
    (∀ e ∈ verifyFiles paths fs,
      ∃ st, fs e.path = some st ∧ e = mkEntry e.path st) ∧
    (∀ p ∈ paths, ∀ st, fs p = some st → mkEntry p st ∈ verifyFiles paths fs) ∧
    (∀ (success : Bool) (t : Instant) (rd : String) (w : WState),
      success = true ∨ w.sess.status = Status.stopped →
      (workerFinish success t fs rd w).sess.files =
        verifyFiles (candidatePaths rd w.sess.outPfx (tsOfStart w.sess.startTime)) fs) := by
  refine ⟨?_, ?_, ?_, ?_⟩
  · induction paths with
    | nil => rfl
    | cons p rest ih =>
      rcases hp : fs p with _ | st
      · simpa [verifyFiles, hp] using ih
      · simpa [verifyFiles, hp, mkEntry] using ih
  · induction paths with
    | nil => intro e he; cases he
    | cons p rest ih =>
      intro e he
      rcases hp : fs p with _ | st
      · rw [verifyFiles, hp] at he
        exact ih e he
      · rw [verifyFiles, hp, List.mem_cons] at he
        rcases he with he | he
        · exact ⟨st, by rw [he]; exact hp, by rw [he]; rfl⟩
        · exact ih e he
  · induction paths with
    | nil => intro p hp; cases hp
    | cons q rest ih =>
      intro p hp st hst
      rw [List.mem_cons] at hp
      rcases hp with hp | hp
      · rw [hp] at hst ⊢
        rw [verifyFiles, hst]
        exact List.mem_cons_self _ _
      · rcases hq : fs q with _ | stq
        · rw [verifyFiles, hq]
          exact ih p hp st hst
        · rw [verifyFiles, hq]
          exact List.mem_cons_of_mem _ (ih p hp st hst)
  · intro success t rd w h
    unfold workerFinish finishSession
    rw [if_pos h]

/-- C4 witness: the verification statement applied to a file system where
only recordings/a.wav of the two candidates exists, discharging its
membership and existence hypotheses there. -/
theorem artifact_verification_witness :
    (verifyFiles ["recordings/a.wav", "recordings/b.wav"] c4Fs).map
        FileEntry.path =
      ["recordings/a.wav", "recordings/b.wav"].filter
        (fun p => (c4Fs p).isSome) ∧
    mkEntry "recordings/a.wav" { size := 3, mtime := 7 } ∈
      verifyFiles ["recordings/a.wav", "recordings/b.wav"] c4Fs ∧
    (workerFinish true iC c4Fs "recordings" c2w2).sess.files =
      verifyFiles
        (candidatePaths "recordings" c2w2.sess.outPfx
          (tsOfStart c2w2.sess.startTime)) c4Fs := by
  have h := artifact_verification ["recordings/a.wav", "recordings/b.wav"] c4Fs
  have h4 := artifact_verification [] c4Fs
  refine ⟨h.1, ?_, h4.2.2.2 true iC "recordings" c2w2 (Or.inl rfl)⟩
  exact h.2.2.1 "recordings/a.wav" (by decide) { size := 3, mtime := 7 } (by decide)

/-- The start endpoint rejects without touching anything while the slot
holds a recording session. -/
theorem startRecordingOp_conflict {s : Session} (hs : s.status = Status.recording)
    (ns : Session) :
    startRecordingOp (some s) ns = (StartResult.conflict, some s) := by
  simp [startRecordingOp, admissionBusy, hs]

/-- C1: while the slot is occupied by a session with status recording,
every start request of any sequence served under the lock returns the
admission conflict ("Recording already in progress"); none succeeds —
so in particular at most one of any pair does — and no rejected request
mutates any Session object or changes the slot: the slot still holds the
identical session afterwards. -/
theorem admission_conflicts (s : Session) (hs : s.status = Status.recording)
    (reqs : List Session) :
    (∀ r ∈ (runStarts (some s) reqs).1, r = StartResult.conflict) ∧
    (runStarts (some s) reqs).2 = some s ∧
    ((runStarts (some s) reqs).1.countP
      (fun r => match r with
        | StartResult.accepted _ => true
        | StartResult.conflict => false)) = 0 := by
  induction reqs with
  | nil =>
    exact ⟨fun r hr => absurd hr (List.not_mem_nil r), rfl, rfl⟩
  | cons ns rest ih =>
    have hstep := startRecordingOp_conflict hs ns
    refine ⟨?_, ?_, ?_⟩
    · intro r hr
      rw [runStarts] at hr
      simp only [hstep, List.mem_cons] at hr
      rcases hr with hr | hr
      · exact hr
      · exact ih.1 r hr
    · rw [runStarts]
      simp only [hstep]
      exact ih.2.1
    · rw [runStarts]
      simp only [hstep, List.countP_cons]
      simpa using ih.2.2

/-- C1 witness: two start requests served while a concrete recording
session occupies the slot both answer the conflict and leave the slot
unchanged. -/
theorem admission_conflicts_witness :
    sessRec.status = Status.recording ∧
    (∀ r ∈ (runStarts (some sessRec)
        [mkSession stamp1 "bold-fox-1111" "q.wav" 30 48000 "api_recording",
         mkSession stamp1 "keen-owl-2222" "q.wav" 30 48000 "api_recording"]).1,
      r = StartResult.conflict) ∧
    (runStarts (some sessRec)
        [mkSession stamp1 "bold-fox-1111" "q.wav" 30 48000 "api_recording",
         mkSession stamp1 "keen-owl-2222" "q.wav" 30 48000 "api_recording"]).2 =
      some sessRec := by
  have h := admission_conflicts sessRec (by decide)
    [mkSession stamp1 "bold-fox-1111" "q.wav" 30 48000 "api_recording",
     mkSession stamp1 "keen-owl-2222" "q.wav" 30 48000 "api_recording"]
  exact ⟨by decide, h.1, h.2.1⟩

/-- The invariant holds of a fresh session. -/
theorem inv_initW (now : Stamp) (hid pf : String) (dur sr : Nat) (opfx : String) :
    Inv (initW now hid pf dur sr opfx) :=
  ⟨rfl, rfl, rfl, rfl⟩

/-- Every operation preserves the phase-status invariant. -/
theorem inv_step {w w' : WState} (hi : Inv w) (hs : Step w w') : Inv w' := by
  cases hs with
  | beginStep t w hph =>
    simp only [Inv, hph] at hi
    simp only [Inv, workerBegin]
    exact Or.inl ⟨trivial, hi.2.2.1⟩
  | setRecorderStep w hph =>
    simp only [Inv, hph] at hi
    simp only [Inv, workerSetRecorder]
    exact hi
  | stopStep t fs rd w =>
    by_cases hc : w.inSlot = true ∧ w.sess.status = Status.recording
    · simp only [stopRequest, if_pos hc]
      cases hph : w.phase <;> simp only [Inv, hph] at hi ⊢
      · rw [hc.2] at hi
        exact absurd hi.1 (by decide)
      · exact Or.inr ⟨rfl, by simp [stopSession]⟩
      · exact Or.inr ⟨rfl, by simp [stopSession]⟩
      · rcases hi with ⟨hi1, _⟩ | ⟨hi1, _⟩ <;> rw [hc.2] at hi1 <;>
          rcases hi1 with h | h <;> simp_all
      · rcases hi with ⟨hi1, _⟩ | ⟨hi1, _⟩ <;> rw [hc.2] at hi1 <;>
          rcases hi1 with h | h <;> simp_all
    · simp only [stopRequest, if_neg hc]
      exact hi
  | finishStep success t fs rd w hph =>
    simp only [Inv, hph] at hi
    simp only [Inv, workerFinish, finishSession]
    rcases hi with ⟨hrec, het⟩ | ⟨hstp, het⟩
    · by_cases hsucc : success = true
      · rw [if_pos (Or.inl hsucc)]
        rw [hrec]
        exact Or.inl ⟨Or.inl (by simp), by simp⟩
      · rw [if_neg (by rw [hrec]; simp [hsucc])]
        exact Or.inr ⟨rfl, Or.inr rfl⟩
    · rw [if_pos (Or.inr hstp)]
      rw [hstp]
      exact Or.inl ⟨Or.inr (by simp), by simp⟩
  | raiseStep msg t w hph =>
    simp only [Inv, workerRaise]
    exact Or.inr ⟨trivial, Or.inl (by simp)⟩
  | clearStep w hph =>
    simp only [Inv, hph] at hi
    simp only [Inv, workerClear]
    exact hi

/-- The invariant holds of every reachable state. -/
theorem inv_reachable (now : Stamp) (hid pf : String) (dur sr : Nat)
    (opfx : String) {w : WState}
    (hr : Reachable (initW now hid pf dur sr opfx) w) : Inv w := by
  induction hr with
  | refl => exact inv_initW now hid pf dur sr opfx
  | tail _ hstep ih => exact inv_step ih hstep

/-- On an invariant state, every single operation either keeps the status
or moves it along one of the code's edges. -/
theorem step_status_edge {w w' : WState} (hi : Inv w) (hs : Step w w') :
    statusEdgeOK w.sess.status w'.sess.status := by
  cases hs with
  | beginStep t w hph =>
    simp only [Inv, hph] at hi
    rw [hi.1]
    exact Or.inr (Or.inl ⟨rfl, rfl⟩)
  | setRecorderStep w hph =>
    exact Or.inl rfl
  | stopStep t fs rd w =>
    by_cases hc : w.inSlot = true ∧ w.sess.status = Status.recording
    · simp only [stopRequest, if_pos hc]
      rw [hc.2]
      exact Or.inr (Or.inr (Or.inl ⟨rfl, Or.inr (Or.inr rfl)⟩))
    · simp only [stopRequest, if_neg hc]
      exact Or.inl rfl
  | finishStep success t fs rd w hph =>
    simp only [Inv, hph] at hi
    simp only [workerFinish, finishSession]
    rcases hi with ⟨hrec, _⟩ | ⟨hstp, _⟩
    · by_cases hsucc : success = true
      · rw [if_pos (Or.inl hsucc)]
        rw [hrec]
        exact Or.inr (Or.inr (Or.inl ⟨rfl, by simp⟩))
      · rw [if_neg (by rw [hrec]; simp [hsucc])]
        rw [hrec]
        exact Or.inr (Or.inr (Or.inl ⟨rfl, Or.inr (Or.inl rfl)⟩))
    · rw [if_pos (Or.inr hstp)]
      rw [hstp]
      exact Or.inl (by simp)
  | raiseStep msg t w hph =>
    simp only [Inv, workerRaise]
    rcases hph with hph | hph <;> simp only [Inv, hph] at hi <;>
      rcases hi with ⟨h1, _⟩ | ⟨h1, _⟩ <;> rw [h1]
    · exact Or.inr (Or.inr (Or.inl ⟨rfl, Or.inr (Or.inl rfl)⟩))
    · exact Or.inr (Or.inr (Or.inr ⟨rfl, rfl⟩))
    · exact Or.inr (Or.inr (Or.inl ⟨rfl, Or.inr (Or.inl rfl)⟩))
    · exact Or.inr (Or.inr (Or.inr ⟨rfl, rfl⟩))
  | clearStep w hph =>
    exact Or.inl rfl

/-- What the edge set implies pointwise: no transition back to
initialized, recording only entered from initialized, completed never
left. -/
theorem statusEdgeOK_consequences (a b : Status) (h : statusEdgeOK a b) :
    (b = Status.initialized → a = Status.initialized) ∧
    (b = Status.recording → a = Status.initialized ∨ a = Status.recording) ∧
    (a = Status.completed → b = Status.completed) := by
  rcases h with h | ⟨h1, h2⟩ | ⟨h1, h2 | h2 | h2⟩ | ⟨h1, h2⟩
  · subst h
    exact ⟨fun hb => hb, fun hb => Or.inr hb, fun ha => ha⟩
  all_goals subst h1; subst h2; exact (by decide)

/-- C2 amended: along every reachable trace, each operation either keeps
the session's status or moves it along initialized → recording →
(completed, error or stopped) — except that the worker's exception
handler may overwrite an already stopped status with error.  No operation
returns a status to initialized, re-enters recording from any state but
initialized, or changes a status that is already completed. -/
theorem session_status_transitions (now : Stamp) (hid pf : String)
    (dur sr : Nat) (opfx : String) (w w' : WState)
    (hr : Reachable (initW now hid pf dur sr opfx) w) (hs : Step w w') :
    statusEdgeOK w.sess.status w'.sess.status ∧
    (w'.sess.status = Status.initialized → w.sess.status = Status.initialized) ∧
    (w'.sess.status = Status.recording →
      w.sess.status = Status.initialized ∨ w.sess.status = Status.recording) ∧
    (w.sess.status = Status.completed → w'.sess.status = Status.completed) := by
  have hedge := step_status_edge (inv_reachable now hid pf dur sr opfx hr) hs
  exact ⟨hedge, statusEdgeOK_consequences _ _ hedge⟩

/-- C2 witness: the transition statement applied to the first step of a
concrete trace, the worker's start block. -/
theorem session_status_transitions_witness :
    statusEdgeOK c2w0.sess.status c2w1.sess.status ∧
    (c2w1.sess.status = Status.initialized →
      c2w0.sess.status = Status.initialized) ∧
    (c2w1.sess.status = Status.recording →
      c2w0.sess.status = Status.initialized ∨
        c2w0.sess.status = Status.recording) ∧
    (c2w0.sess.status = Status.completed →
      c2w1.sess.status = Status.completed) :=
  session_status_transitions stamp0 "swift-panda-2347" "p.wav" 60 44100
    "api_recording" c2w0 c2w1 Relation.ReflTransGen.refl
    (Step.beginStep iA c2w0 rfl)

/-- C2 counterexample: a reachable session whose status is already
stopped — the worker began, stored the recorder, and a stop request was
served — is moved to error by the worker's exception handler when
record_with_playback raises (here: the Rubix44 input device is not
found), so an operation does change a status that is already stopped. -/
theorem stopped_to_error_counterexample :
    Reachable c2w0 c2w3 ∧
    c2w3.sess.status = Status.stopped ∧
    Step c2w3 c2w4 ∧
    c2w4.sess.status = Status.error := by
  refine ⟨?_, by decide, ?_, by decide⟩
  · exact Relation.ReflTransGen.tail
      (Relation.ReflTransGen.tail
        (Relation.ReflTransGen.tail Relation.ReflTransGen.refl
          (Step.beginStep iA c2w0 rfl))
        (Step.setRecorderStep c2w1 rfl))
      (Step.stopStep iB fsEmpty "recordings" c2w2)
  · exact Step.raiseStep "Could not find Rubix44 input device!" iC c2w3
      (Or.inr (by decide))

/-- C3 amended: in every reachable state in which the worker and any stop
request have finished mutating the session (the worker's phase is
finished or cleared), end_time is set only with a terminal status, and a
terminal status has end_time set — except that the worker's
recording-failed branch sets status error with the message
"Recording failed" while leaving end_time null. -/
theorem endtime_iff_terminal (now : Stamp) (hid pf : String)
    (dur sr : Nat) (opfx : String) (w : WState)
    (hr : Reachable (initW now hid pf dur sr opfx) w)
    (hq : w.phase = Phase.finished ∨ w.phase = Phase.cleared) :
    (w.sess.endTime ≠ none →
      w.sess.status = Status.completed ∨ w.sess.status = Status.error ∨
        w.sess.status = Status.stopped) ∧
    ((w.sess.status = Status.completed ∨ w.sess.status = Status.stopped) →
      w.sess.endTime ≠ none) ∧
    (w.sess.status = Status.error →
      w.sess.endTime ≠ none ∨ w.sess.error = some "Recording failed") := by
  have hi := inv_reachable now hid pf dur sr opfx hr
  have hi' :
      (w.sess.status = Status.completed ∨ w.sess.status = Status.stopped) ∧
          w.sess.endTime ≠ none ∨
        w.sess.status = Status.error ∧
          (w.sess.endTime ≠ none ∨ w.sess.error = some "Recording failed") := by
    rcases hq with hq | hq <;> simp only [Inv, hq] at hi <;> exact hi
  rcases hi' with ⟨hterm, het⟩ | ⟨herr, hd⟩
  · refine ⟨fun _ => ?_, fun _ => het, fun he => ?_⟩
    · rcases hterm with h | h
      · exact Or.inl h
      · exact Or.inr (Or.inr h)
    · rcases hterm with h | h <;> rw [h] at he <;> exact absurd he (by decide)
  · refine ⟨fun _ => Or.inr (Or.inl herr), fun h => ?_, fun _ => hd⟩
    rcases h with h | h <;> rw [herr] at h <;> exact absurd h (by decide)

/-- C3 witness: the statement applied to the concrete completed run
reaching `c3wOk`, whose hypotheses are discharged by the explicit trace. -/
theorem endtime_iff_terminal_witness :
    (c3wOk.sess.endTime ≠ none →
      c3wOk.sess.status = Status.completed ∨
        c3wOk.sess.status = Status.error ∨
        c3wOk.sess.status = Status.stopped) ∧
    ((c3wOk.sess.status = Status.completed ∨
        c3wOk.sess.status = Status.stopped) →
      c3wOk.sess.endTime ≠ none) ∧
    (c3wOk.sess.status = Status.error →
      c3wOk.sess.endTime ≠ none ∨ c3wOk.sess.error = some "Recording failed") :=
  endtime_iff_terminal stamp0 "swift-panda-2347" "p.wav" 60 44100
    "api_recording" c3wOk
    (Relation.ReflTransGen.tail
      (Relation.ReflTransGen.tail
        (Relation.ReflTransGen.tail Relation.ReflTransGen.refl
          (Step.beginStep iA c2w0 rfl))
        (Step.setRecorderStep c2w1 rfl))
      (Step.finishStep true iC fsEmpty "recordings" c2w2 rfl))
    (Or.inl rfl)

/-- C3 counterexample: when record_with_playback returns False on a
session that was never stopped, the worker's recording-failed branch
leaves a reachable, fully finalized session with terminal status error
and end_time still null — so end_time set is not equivalent to the status
being terminal, and this error path does not set end_time. -/
theorem error_without_endtime_counterexample :
    Reachable c2w0 c3w3 ∧
    c3w3.phase = Phase.finished ∧
    c3w3.sess.status = Status.error ∧
    c3w3.sess.endTime = none := by
  refine ⟨?_, rfl, by decide, by decide⟩
  exact Relation.ReflTransGen.tail
    (Relation.ReflTransGen.tail
      (Relation.ReflTransGen.tail Relation.ReflTransGen.refl
        (Step.beginStep iA c2w0 rfl))
      (Step.setRecorderStep c2w1 rfl))
    (Step.finishStep false iC fsEmpty "recordings" c2w2 rfl)

/-- If the stop flag is never set and the device stays active, the poll
loop only exits when the requested duration has elapsed. -/
theorem pollLoopGo_no_stop (d : Nat) :
    ∀ fuel t, t ≤ d → d ≤ t + fuel →
      pollLoopGo (fun _ => false) (fun _ => true) d fuel t = d := by
  intro fuel
  induction fuel with
  | zero =>
    intro t h1 h2
    have : t = d := by omega
    rw [pollLoopGo, this]
  | succ fuel ih =>
    intro t h1 h2
    rw [pollLoopGo]
    simp only [Bool.false_eq_true, if_false]
    by_cases hdt : d ≤ t
    · rw [if_pos hdt]
      omega
    · rw [if_neg hdt]
      simp only [Bool.true_eq_false, if_false]
      exact ih (t + 1) (by omega) (by omega)

/-- A capture whose stop flag is never raised runs for the full requested
duration. -/
theorem pollLoop_no_stop (d : Nat) :
    pollLoop (fun _ => false) (fun _ => true) d = d :=
  pollLoopGo_no_stop d d 0 (Nat.zero_le d) (by omega)

/-- C10: if a stop request is served after the worker has set the status
to recording but before the recorder reference is stored, the request
nevertheless answers success, marks the session stopped and sets
end_time, but finds no recorder to signal; the recorder created
afterwards has its stop flag still false, so the poll loop — never seeing
the flag — runs for the full requested duration; and when the worker then
finalizes, it preserves the stopped status. -/
theorem stop_before_recorder_reference (now : Stamp) (hid pf : String)
    (dur sr : Nat) (opfx : String) (i1 i2 i3 : Instant) (fs : FileSystem)
    (rd : String) :
    (stopRequest i2 fs rd
        { workerBegin i1 (initW now hid pf dur sr opfx) with
          phase := Phase.begun }).2 ≠ StopResult.noActive ∧
    (stopRequest i2 fs rd
        { workerBegin i1 (initW now hid pf dur sr opfx) with
          phase := Phase.begun }).1.sess.status = Status.stopped ∧
    (stopRequest i2 fs rd
        { workerBegin i1 (initW now hid pf dur sr opfx) with
          phase := Phase.begun }).1.sess.endTime = some i2 ∧
    (stopRequest i2 fs rd
        { workerBegin i1 (initW now hid pf dur sr opfx) with
          phase := Phase.begun }).1.sess.recorder = none ∧
    (workerSetRecorder
        (stopRequest i2 fs rd
          { workerBegin i1 (initW now hid pf dur sr opfx) with
            phase := Phase.begun }).1).sess.recorder =
      some { duration := dur, sampleRate := sr, shouldStop := false } ∧
    (workerFinish true i3 fs rd
        { workerSetRecorder
            (stopRequest i2 fs rd
              { workerBegin i1 (initW now hid pf dur sr opfx) with
                phase := Phase.begun }).1 with
          phase := Phase.hasRecorder }).sess.status = Status.stopped ∧
    pollLoop (fun _ => false) (fun _ => true) (dur * 10) = dur * 10 := by
  refine ⟨?_, ?_, ?_, ?_, ?_, ?_, pollLoop_no_stop (dur * 10)⟩ <;>
    simp [stopRequest, stopSession, workerBegin, initW, mkSession,
      workerSetRecorder, workerFinish, finishSession]

/-- C10 witness: the interleaving statement applied to a concrete
session, instants, file system and recordings directory. -/
theorem stop_before_recorder_reference_witness :
    (stopRequest iB fsEmpty "recordings"
        { workerBegin iA
            (initW stamp0 "swift-panda-2347" "p.wav" 60 44100 "api_recording") with
          phase := Phase.begun }).1.sess.status = Status.stopped ∧
    pollLoop (fun _ => false) (fun _ => true) (60 * 10) = 60 * 10 :=
  ⟨(stop_before_recorder_reference stamp0 "swift-panda-2347" "p.wav" 60 44100
      "api_recording" iA iB iC fsEmpty "recordings").2.1,
   (stop_before_recorder_reference stamp0 "swift-panda-2347" "p.wav" 60 44100
      "api_recording" iA iB iC fsEmpty "recordings").2.2.2.2.2.2⟩

/-- A fixed-width decimal rendering has its width as length. -/
theorem padDigits_length (w : Nat) : ∀ n, (padDigits w n).length = w := by
  induction w with
  | zero => intro n; rfl
  | succ w ih =>
    intro n
    rw [padDigits]
    simp [ih]

/-- Decimal digit characters compare like the digits. -/
theorem digitChar_lt_digitChar :
    ∀ a < 10, ∀ b < 10, a < b → digitChar a < digitChar b := by decide

/-- A lexicographic strict comparison of two equal-length lists survives
appending anything on the right of both. -/
theorem lexLt_append_of_length_eq {xs ys : List Char} (as bs : List Char)
    (h : List.Lex (· < ·) xs ys) (hlen : xs.length = ys.length) :
    List.Lex (· < ·) (xs ++ as) (ys ++ bs) := by
  revert hlen
  induction h with
  | nil =>
    intro hlen
    simp at hlen
  | cons h ih =>
    intro hlen
    exact List.Lex.cons (ih (by simpa using hlen))
  | rel h =>
    intro hlen
    exact List.Lex.rel h

/-- A lexicographic strict comparison survives prepending a common
prefix. -/
theorem lexLt_append_same (xs : List Char) {as bs : List Char}
    (h : List.Lex (· < ·) as bs) :
    List.Lex (· < ·) (xs ++ as) (xs ++ bs) := by
  induction xs with
  | nil => exact h
  | cons x xs ih => exact List.Lex.cons ih

/-- Fixed-width zero-padded decimal renderings of numbers in range
compare lexicographically like the numbers. -/
theorem padDigits_lt (w : Nat) : ∀ n1 n2, n1 < n2 → n2 < 10 ^ w →
    List.Lex (· < ·) (padDigits w n1) (padDigits w n2) := by
  induction w with
  | zero =>
    intro n1 n2 h1 h2
    simp at h2
    omega
  | succ w ih =>
    intro n1 n2 h1 h2
    rw [padDigits, padDigits]
    have hpow : (10:Nat) ^ (w + 1) = 10 ^ w * 10 := pow_succ 10 w
    rcases Nat.lt_trichotomy (n1 / 10) (n2 / 10) with hq | hq | hq
    · refine lexLt_append_of_length_eq _ _ (ih (n1 / 10) (n2 / 10) hq ?_) ?_
      · rw [hpow] at h2
        omega
      · rw [padDigits_length, padDigits_length]
    · rw [hq]
      refine lexLt_append_same _ (List.Lex.rel ?_)
      exact digitChar_lt_digitChar (n1 % 10) (by omega) (n2 % 10) (by omega)
        (by omega)
    · exact absurd hq (by omega)

/-- Concatenating fixed-width renderings renders the packed number. -/
theorem padDigits_append : ∀ (w2 w1 a b : Nat), b < 10 ^ w2 →
    padDigits w1 a ++ padDigits w2 b =
      padDigits (w1 + w2) (a * 10 ^ w2 + b) := by
  intro w2
  induction w2 with
  | zero =>
    intro w1 a b hb
    have hb0 : b = 0 := by simpa using hb
    subst hb0
    simp [padDigits]
  | succ w2 ih =>
    intro w1 a b hb
    have hstep : padDigits (w2 + 1) b =
        padDigits w2 (b / 10) ++ [digitChar (b % 10)] := rfl
    rw [hstep, ← List.append_assoc]
    have hbdiv : b / 10 < 10 ^ w2 := by
      rw [pow_succ] at hb
      omega
    rw [ih w1 a (b / 10) hbdiv]
    have hw : w1 + (w2 + 1) = (w1 + w2) + 1 := by omega
    rw [hw]
    have hstep2 : padDigits ((w1 + w2) + 1) (a * 10 ^ (w2 + 1) + b) =
        padDigits (w1 + w2) ((a * 10 ^ (w2 + 1) + b) / 10) ++
          [digitChar ((a * 10 ^ (w2 + 1) + b) % 10)] := rfl
    rw [hstep2]
    have hre : a * 10 ^ (w2 + 1) + b = b + (a * 10 ^ w2) * 10 := by
      rw [pow_succ]
      ring
    have hdiv : (a * 10 ^ (w2 + 1) + b) / 10 = a * 10 ^ w2 + b / 10 := by
      rw [hre, Nat.add_mul_div_right _ _ (by norm_num : 0 < 10), Nat.add_comm]
    have hmod : (a * 10 ^ (w2 + 1) + b) % 10 = b % 10 := by
      rw [hre, Nat.add_mul_mod_self_right]
    rw [hdiv, hmod]

/-- The strftime("%Y%m%d_%H%M%S") characters are the 8-digit packed date,
an underscore, and the 6-digit packed time of day. -/
theorem sessionIdChars_decompose (t : Stamp)
    (hmo : t.month < 100) (hd : t.day < 100) (_hh : t.hour < 100)
    (hmi : t.minute < 100) (hs : t.second < 100) :
    sessionIdChars t =
      padDigits 8 t.dateKey ++ '_' :: padDigits 6 t.timeKey := by
  have p2 : (10:Nat) ^ 2 = 100 := by norm_num
  have p4 : (10:Nat) ^ 4 = 10000 := by norm_num
  have hTime1 : padDigits 2 t.minute ++ padDigits 2 t.second =
      padDigits 4 (t.minute * 100 + t.second) := by
    rw [padDigits_append 2 2 t.minute t.second (by omega), p2]
  have hTime2 : padDigits 2 t.hour ++ padDigits 4 (t.minute * 100 + t.second) =
      padDigits 6 (t.hour * 10000 + (t.minute * 100 + t.second)) := by
    rw [padDigits_append 4 2 t.hour (t.minute * 100 + t.second) (by omega), p4]
  have hDate1 : padDigits 2 t.month ++ padDigits 2 t.day =
      padDigits 4 (t.month * 100 + t.day) := by
    rw [padDigits_append 2 2 t.month t.day (by omega), p2]
  have hDate2 : padDigits 4 t.year ++ padDigits 4 (t.month * 100 + t.day) =
      padDigits 8 (t.year * 10000 + (t.month * 100 + t.day)) := by
    rw [padDigits_append 4 4 t.year (t.month * 100 + t.day) (by omega), p4]
  have hdk : t.year * 10000 + (t.month * 100 + t.day) = t.dateKey := by
    unfold Stamp.dateKey
    ring
  have htk : t.hour * 10000 + (t.minute * 100 + t.second) = t.timeKey := by
    unfold Stamp.timeKey
    ring
  rw [← hdk, ← htk, ← hDate2, ← hDate1, ← hTime2, ← hTime1]
  simp [sessionIdChars, List.append_assoc]

/-- C9 counterexample: two distinct sessions — their human ids differ —
created within the same second carry the same id, because the id is
datetime.now().strftime("%Y%m%d_%H%M%S") and has second resolution. -/
theorem duplicate_session_id_counterexample :
    mkSession stamp0 "swift-panda-2347" "p.wav" 60 44100 "api_recording" ≠
      mkSession stamp0 "calm-otter-7777" "p.wav" 60 44100 "api_recording" ∧
    (mkSession stamp0 "swift-panda-2347" "p.wav" 60 44100 "api_recording").id =
      (mkSession stamp0 "calm-otter-7777" "p.wav" 60 44100 "api_recording").id := by
  constructor
  · intro h
    have := congrArg Session.humanId h
    simp [mkSession] at this
  · rfl

/-- C9 amended: session ids are only unique per second of creation time:
two sessions created at distinct second-stamps have distinct ids and
comparing the two ids as strings reproduces the creation order, while two
sessions created within the same second share one id. -/
theorem session_ids_ordered (t1 t2 : Stamp) (h1 : t1.valid) (h2 : t2.valid)
    (hlt : t1.key < t2.key) :
    sessionId t1 < sessionId t2 ∧ sessionId t1 ≠ sessionId t2 := by
  obtain ⟨hy1a, hy1b, hmo1a, hmo1b, hd1a, hd1b, hh1, hmi1, hs1⟩ := h1
  obtain ⟨hy2a, hy2b, hmo2a, hmo2b, hd2a, hd2b, hh2, hmi2, hs2⟩ := h2
  have hdk1 : t1.dateKey = (t1.year * 100 + t1.month) * 100 + t1.day := rfl
  have hdk2 : t2.dateKey = (t2.year * 100 + t2.month) * 100 + t2.day := rfl
  have htk1 : t1.timeKey = (t1.hour * 100 + t1.minute) * 100 + t1.second := rfl
  have htk2 : t2.timeKey = (t2.hour * 100 + t2.minute) * 100 + t2.second := rfl
  have hkey1 : t1.key = t1.dateKey * 1000000 + t1.timeKey := rfl
  have hkey2 : t2.key = t2.dateKey * 1000000 + t2.timeKey := rfl
  have p8 : (10:Nat) ^ 8 = 100000000 := by norm_num
  have p6 : (10:Nat) ^ 6 = 1000000 := by norm_num
  have hcases : t1.dateKey < t2.dateKey ∨
      (t1.dateKey = t2.dateKey ∧ t1.timeKey < t2.timeKey) := by
    omega
  have hlex : List.Lex (· < ·) (sessionIdChars t1) (sessionIdChars t2) := by
    rw [sessionIdChars_decompose t1 (by omega) (by omega) (by omega) (by omega)
      (by omega)]
    rw [sessionIdChars_decompose t2 (by omega) (by omega) (by omega) (by omega)
      (by omega)]
    rcases hcases with hc | ⟨hce, hct⟩
    · refine lexLt_append_of_length_eq _ _
        (padDigits_lt 8 t1.dateKey t2.dateKey hc (by omega)) ?_
      rw [padDigits_length, padDigits_length]
    · rw [hce]
      exact lexLt_append_same _
        (List.Lex.cons (padDigits_lt 6 t1.timeKey t2.timeKey hct (by omega)))
  have hslt : sessionId t1 < sessionId t2 := String.lt_iff_toList_lt.mpr hlex
  exact ⟨hslt, ne_of_lt hslt⟩

/-- C9 witness: the amended statement applied to two concrete stamps one
second apart, with validity and order discharged by computation. -/
theorem session_ids_ordered_witness :
    (stamp0.valid ∧ stamp1.valid ∧ stamp0.key < stamp1.key) ∧
    (sessionId stamp0 < sessionId stamp1 ∧
      sessionId stamp0 ≠ sessionId stamp1) :=
  ⟨⟨by unfold Stamp.valid; decide, by unfold Stamp.valid; decide, by decide⟩,
    session_ids_ordered stamp0 stamp1 (by unfold Stamp.valid; decide)
      (by unfold Stamp.valid; decide) (by decide)⟩

end Rubix
